import Mathlib

/-
Verification development for the dcs-mobile-demo repository.

This file shallowly embeds the cache subsystem (src/lib/cache.ts), the
annotation anchoring helpers (src/lib/annotations-helper.ts and the injected
script of src/lib/annotations-native.ts) and the annotation store
(the AnnotationsProvider context), and proves properties about them.

Modelling conventions:
- JavaScript numbers used as epoch timestamps and TTLs become `Int`
  (subtraction such as `Date.now() - entry.timestamp` may be negative).
- `Date.now()` is passed explicitly as a `now` parameter at each call that
  reads the clock in the source.
- The in-memory `Map`, `AsyncStorage` and the blob/file directory become
  association lists from keys to entries inside an explicit `CacheState`;
  `await`ed storage operations become pure state passing.
- Network fetches and downloads are injected outcomes (`Except Unit _`),
  mirroring the source where `fetchFn` and `FileSystem.downloadAsync` are
  external collaborators.
- JavaScript string text content is modelled as `String` for keys/URLs and
  as `List Char` for DOM text (JS `substring`/`includes` act on code units;
  the documents here are treated per character).
-/

namespace Dcs

/- ==================== character-list string primitives ====================
   Executable stand-ins for the JS string operations used by the source
   (`startsWith`, `endsWith`, `includes`, `split`, `lastIndexOf`). -/

/-- `isPrefixB pat s` is true when `pat` is a prefix of `s` (Boolean). -/
def isPrefixB : List Char → List Char → Bool
  | [], _ => true
  | _ :: _, [] => false
  | a :: as, b :: bs => a == b && isPrefixB as bs

/-- `containsB s pat`: JS `s.includes(pat)` on character lists. -/
def containsB (s pat : List Char) : Bool :=
  isPrefixB pat s ||
    (match s with
     | [] => false
     | _ :: t => containsB t pat)

/-- JS `s.startsWith(pre)`. -/
def strStartsWith (s pre : String) : Bool := isPrefixB pre.toList s.toList

/-- JS `s.endsWith(suf)`. -/
def strEndsWith (s suf : String) : Bool := isPrefixB suf.toList.reverse s.toList.reverse

/-- Split at the first occurrence of `pat`: returns the part before and the
part after it, or `none` when `pat` does not occur. -/
def breakAt (pat : List Char) : List Char → Option (List Char × List Char)
  | [] => if isPrefixB pat [] then some ([], []) else none
  | c :: rest =>
    if isPrefixB pat (c :: rest) then some ([], (c :: rest).drop pat.length)
    else
      match breakAt pat rest with
      | some (b, a) => some (c :: b, a)
      | none => none

/-- Split a character list on a separator character (JS `s.split(sep)`). -/
def splitOnChar (sep : Char) : List Char → List (List Char)
  | [] => [[]]
  | c :: rest =>
    let r := splitOnChar sep rest
    if c == sep then [] :: r
    else
      match r with
      | [] => [[c]]
      | h :: t => (c :: h) :: t

/-- Characters of `u` up to and including its last `'/'`
(JS `u.substring(0, u.lastIndexOf('/') + 1)`; empty when there is no slash). -/
def upToLastSlash (u : String) : String :=
  String.mk ((u.toList.reverse.dropWhile (fun c => c != '/')).reverse)

/- ==================== Cache Store (src/lib/cache.ts) ==================== -/

/-- `CacheEntry<T>` of cache.ts. -/
structure CacheEntry (α : Type) where
  data : α
  timestamp : Int
  ttl : Int
  key : String
deriving DecidableEq

/-- One storage tier: keys mapped to entries. -/
abbrev EntryMap (α : Type) := List (String × CacheEntry α)

/-- Read a key from a tier (`Map.get` / `AsyncStorage.getItem` + parse /
file read + parse; the string and file serializations round-trip, so the
tiers are modelled as holding entries directly). -/
def lookupEntry {α : Type} (m : EntryMap α) (key : String) : Option (CacheEntry α) :=
  List.lookup key m

/-- Overwrite a key in a tier. -/
def storeEntry {α : Type} (m : EntryMap α) (key : String) (e : CacheEntry α) : EntryMap α :=
  (key, e) :: m.filter (fun kv => kv.1 != key)

/-- The whole storage of the cache system: the in-memory `Map`, the
`AsyncStorage` key-value store, the blob/file directory, and whether the
blob directory currently exists. -/
structure CacheState (α : Type) where
  memory : EntryMap α
  storage : EntryMap α
  files : EntryMap α
  dirExists : Bool
deriving DecidableEq

/-- `CACHE_PREFIX = 'dcs:cache:'`. -/
def cacheNamespace : String := "dcs:cache:"

/-- Platform-provided `FileSystem.cacheDirectory` (an opaque absolute path;
its concrete value is irrelevant to every property proved here). -/
def cacheDirRoot : String := "file:///cache/"

/-- `CACHE_DIR = FileSystem.cacheDirectory + 'dcs/'`. -/
def cacheDir : String := cacheDirRoot ++ "dcs/"

/-- `isStale`: `Date.now() - entry.timestamp > entry.ttl`. -/
def isStale {α : Type} (now : Int) (e : CacheEntry α) : Bool :=
  now - e.timestamp > e.ttl

/-- The entry built by every `setIn*` writer: `timestamp: Date.now()`. -/
def mkEntry {α : Type} (now : Int) (key : String) (data : α) (ttl : Int) : CacheEntry α :=
  ⟨data, now, ttl, key⟩

/-- `setInMemory`. -/
def setInMemory {α : Type} (now : Int) (s : CacheState α) (key : String) (data : α)
    (ttl : Int) : CacheState α :=
  { s with memory := storeEntry s.memory key (mkEntry now key data ttl) }

/-- `getCache(key, useFileSystem)`: memory first; on miss the selected
persistent tier; on a persistent hit, promote via
`setInMemory(key, entry.data, entry.ttl)` and return the persisted entry. -/
def getCache {α : Type} (now : Int) (s : CacheState α) (key : String)
    (useFileSystem : Bool) : Option (CacheEntry α) × CacheState α :=
  match lookupEntry s.memory key with
  | some e => (some e, s)
  | none =>
    if useFileSystem then
      match lookupEntry s.files key with
      | some e => (some e, setInMemory now s key e.data e.ttl)
      | none => (none, s)
    else
      match lookupEntry s.storage key with
      | some e => (some e, setInMemory now s key e.data e.ttl)
      | none => (none, s)

/-- `setCache(key, data, ttl, useFileSystem)`: always write memory; write the
file tier only when `typeof data === 'string'` (`isStr data` here), else only
log; otherwise write AsyncStorage. -/
def setCache {α : Type} (now : Int) (isStr : α → Bool) (s : CacheState α) (key : String)
    (data : α) (ttl : Int) (useFileSystem : Bool) : CacheState α :=
  let s1 := setInMemory now s key data ttl
  if useFileSystem then
    if isStr data then
      { s1 with files := storeEntry s1.files key (mkEntry now key data ttl) }
    else s1
  else
    { s1 with storage := storeEntry s1.storage key (mkEntry now key data ttl) }

/-- `clearCache()`: clear memory; then in its own try/catch remove the
`CACHE_PREFIX` keys from AsyncStorage; then in its own try/catch delete and
recreate the blob directory when it exists. Each catch only logs, and the
function itself never rejects, which the `Except.ok ()` result records.
`storageOpFails` / `fsOpFails` inject storage-layer I/O failures of the
respective block. -/
def clearCache {α : Type} (s : CacheState α) (storageOpFails fsOpFails : Bool) :
    CacheState α × Except Unit Unit :=
  let s1 : CacheState α := { s with memory := [] }
  let s2 :=
    if storageOpFails then s1
    else { s1 with storage := s1.storage.filter (fun kv => !(strStartsWith kv.1 cacheNamespace)) }
  let s3 :=
    if fsOpFails then s2
    else if s2.dirExists then { s2 with files := [], dirExists := true } else s2
  (s3, Except.ok ())

deriving instance DecidableEq for Except

/-- Everything `getWithRevalidate` has done by the time its promise resolves
to the caller. `fetchAwaited` records whether the code path reached
`await fetchFn()` before returning; `revalidationStarted` and `staleData`
record the background task it spawned (the `fetchFn().then(...)` chain) and
the stale value captured for the serialized comparison. -/
structure SwrReturn (α : Type) where
  result : Except Unit α
  state : CacheState α
  fetchAwaited : Bool
  revalidationStarted : Bool
  staleData : Option α
deriving DecidableEq

/-- `getWithRevalidate(key, fetchFn, ttl, useFileSystem)` up to the point the
caller receives a value. On a hit the cached data is returned at once (a
stale hit additionally spawns the background revalidation); on a miss
`fetchFn` is awaited (`fetchOutcome`), its failure propagates, and its value
is written through `setCache` before being returned. -/
def getWithRevalidate {α : Type} (now : Int) (isStr : α → Bool) (s : CacheState α)
    (key : String) (fetchOutcome : Except Unit α) (ttl : Int) (useFileSystem : Bool) :
    SwrReturn α :=
  match getCache now s key useFileSystem with
  | (some cached, s1) =>
    if isStale now cached then
      ⟨Except.ok cached.data, s1, false, true, some cached.data⟩
    else
      ⟨Except.ok cached.data, s1, false, false, none⟩
  | (none, s1) =>
    match fetchOutcome with
    | Except.error e => ⟨Except.error e, s1, true, false, none⟩
    | Except.ok data =>
      ⟨Except.ok data, setCache now isStr s1 key data ttl useFileSystem, true, false, none⟩

/-- The background half of a stale hit: when the fetch resolves, overwrite the
cache only if `JSON.stringify(freshData) !== JSON.stringify(data)` (`encode`
stands for `JSON.stringify`); a rejected fetch is swallowed. -/
def revalidateBackground {α : Type} (now : Int) (encode : α → String) (isStr : α → Bool)
    (s : CacheState α) (key : String) (staleData : α) (fetchOutcome : Except Unit α)
    (ttl : Int) (useFileSystem : Bool) : CacheState α :=
  match fetchOutcome with
  | Except.error _ => s
  | Except.ok fresh =>
    if encode fresh != encode staleData then setCache now isStr s key fresh ttl useFileSystem
    else s

/- ==================== Asset caching (cache.ts, phase 4) ==================== -/

/-- One step of `hashUrl`'s loop:
`hash = ((hash << 5) - hash) + char; hash = hash & hash`. Each JS coercion to
a signed 32-bit integer is congruent mod 2^32, so folding the whole step
through one signed-32-bit reduction is exact. `charCodeAt` agrees with
`Char.toNat` on the code points URLs are made of. -/
def hashStep (h : Int) (c : Char) : Int :=
  ((h * 32 - h + (c.toNat : Int) + 2 ^ 31) % 2 ^ 32) - 2 ^ 31

/-- Digit character for base 36 (`0`-`9`, `a`-`z`), as JS `toString(36)`. -/
def digit36 (n : Nat) : Char :=
  if n < 10 then Char.ofNat (48 + n) else Char.ofNat (87 + n)

/-- Base-36 digits of the second argument, most significant first; the first
argument is structural fuel (the value itself is enough, since it shrinks at
every step). -/
def toBase36Aux : Nat → Nat → List Char → List Char
  | 0, _, acc => acc
  | _ + 1, 0, acc => acc
  | fuel + 1, n + 1, acc => toBase36Aux fuel ((n + 1) / 36) (digit36 ((n + 1) % 36) :: acc)

/-- JS `n.toString(36)` for a non-negative integer. -/
def toBase36 (n : Nat) : String :=
  if n = 0 then "0" else String.mk (toBase36Aux n n [])

/-- `hashUrl`: the 32-bit rolling hash rendered via `Math.abs(hash).toString(36)`. -/
def hashUrl (url : String) : String :=
  toBase36 (url.toList.foldl hashStep 0).natAbs

/-- `getAssetKey`. -/
def getAssetKey (url : String) : String :=
  cacheNamespace ++ "asset:" ++ hashUrl url

/-- `url.split('.').pop()?.split('?')[0] || 'dat'`. -/
def assetExtension (url : String) : String :=
  let lastPart := (splitOnChar '.' url.toList).getLastD []
  let ext := (splitOnChar '?' lastPart).headD []
  if ext.isEmpty then "dat" else String.mk ext

/-- `asset_${hashUrl(url)}.${extension}`. -/
def assetFileName (url : String) : String :=
  "asset_" ++ hashUrl url ++ "." ++ assetExtension url

/-- What the `cacheAsset` promise resolves to. Its declared TypeScript type is
`Promise<string>`, but JavaScript lets a branch resolve with a non-string, so
the embedding needs a union of a string and a whole `CacheEntry` object. -/
inductive JsValue where
  | str (s : String)
  | entryObj (e : CacheEntry String)
deriving DecidableEq

/-- `cacheAsset(url, ttl)`. On a cache hit the source executes `return cached`
where `cached` is the `CacheEntry<string>` from `getCache` — the entry object
itself, not `cached.data`. On a miss it downloads (`downloadOutcome` is the
`FileSystem.downloadAsync` status, or a thrown error); a 200 stores the local
file path under the asset key and resolves with the path, anything else
resolves with the original URL. -/
def cacheAsset (now : Int) (s : CacheState String) (url : String)
    (downloadOutcome : Except Unit Int) (ttl : Int) : JsValue × CacheState String :=
  let key := getAssetKey url
  match getCache now s key false with
  | (some cached, s1) => (JsValue.entryObj cached, s1)
  | (none, s1) =>
    match downloadOutcome with
    | Except.error _ => (JsValue.str url, s1)
    | Except.ok status =>
      if status == 200 then
        let filePath := cacheDir ++ assetFileName url
        (JsValue.str filePath, setCache now (fun _ => true) s1 key filePath ttl false)
      else (JsValue.str url, s1)

/- ==================== URL resolution (cache.ts resolveUrl) ==================== -/

/-- `new URL(baseUrl).protocol` for a `scheme://host/...`-shaped URL: the
scheme with its trailing colon. -/
def urlProtocol (u : String) : String :=
  match breakAt "://".toList u.toList with
  | some (b, _) => String.mk b ++ ":"
  | none => ""

/-- `new URL(baseUrl).host` for a `scheme://host/...`-shaped URL. -/
def urlHost (u : String) : String :=
  match breakAt "://".toList u.toList with
  | some (_, a) => String.mk (a.takeWhile (fun c => c != '/'))
  | none => ""

/-- `resolveUrl(url, baseUrl)`: absolute passthrough; protocol-relative gets
the literal `'https:'` prefix; root-relative is rebuilt from the base's
protocol and host; anything else is appended to the base's directory. -/
def resolveUrl (url baseUrl : String) : String :=
  if strStartsWith url "http://" || strStartsWith url "https://" then url
  else if strStartsWith url "//" then "https:" ++ url
  else if strStartsWith url "/" then urlProtocol baseUrl ++ "//" ++ urlHost baseUrl ++ url
  else (if strEndsWith baseUrl "/" then baseUrl else upToLastSlash baseUrl) ++ url

/-- The document's directory per the spec: the base itself when it ends in a
slash, else everything up to and including its last slash. -/
def urlDirectory (u : String) : String :=
  if strEndsWith u "/" then u else upToLastSlash u

/- ============ DOM model (annotations-helper.ts / annotations-native.ts) ============ -/

/-- A DOM node: an element with a tag and ordered children, or a text node. -/
inductive DomNode where
  | element (tag : String) (children : List DomNode)
  | text (content : List Char)

/-- A stored `AnnotationPosition` with its `xpath` string already parsed into
the `(tagName, 1-based index among same-tag element siblings)` steps that
`getXPathForElement` serialises as `/tag[i]/.../tag[k]`; `doc.evaluate` on a
path of that shape selects children by exactly these steps. -/
structure DomPosition where
  path : List (String × Nat)
  offset : Nat
  textSnippet : List Char

/-- XPath child step `tag[idx]`: the `idx`-th (1-based) element child whose
tag is `tag`, together with its position in the full child list. -/
def nthSameTag (tag : String) : List DomNode → Nat → Nat → Option (Nat × DomNode)
  | [], _, _ => none
  | DomNode.element t cs :: rest, idx, i =>
    if t == tag then
      if idx == 1 then some (i, DomNode.element t cs)
      else nthSameTag tag rest (idx - 1) (i + 1)
    else nthSameTag tag rest idx (i + 1)
  | DomNode.text _ :: rest, idx, i => nthSameTag tag rest idx (i + 1)

/-- `getElementByXPath(doc, xpath)`: walk the parsed steps from the document
node; the result is returned as the child-index path of the selected node
(so that the insertion step can edit the tree there). `none` models both a
step with no such sibling and a thrown evaluation error. -/
def xpathLocate : List (String × Nat) → DomNode → Option (List Nat)
  | [], _ => some []
  | _ :: _, DomNode.text _ => none
  | (tag, idx) :: rest, DomNode.element _ cs =>
    match nthSameTag tag cs idx 0 with
    | none => none
    | some (i, child) => (xpathLocate rest child).map (fun p => i :: p)

/-- The node a child-index path points at. -/
def getNodeAt : List Nat → DomNode → Option DomNode
  | [], n => some n
  | _ :: _, DomNode.text _ => none
  | i :: rest, DomNode.element _ cs =>
    match cs.get? i with
    | none => none
    | some c => getNodeAt rest c

/-- Replace child `i` with the nodes `repl` (`parent.insertBefore`/`removeChild`
splicing). -/
def spliceChild (cs : List DomNode) (i : Nat) (repl : List DomNode) : List DomNode :=
  cs.take i ++ repl ++ cs.drop (i + 1)

/-- Replace the node at a child-index path by the node list `f` produces for
it. At the root only a single replacement node is representable. -/
def mutateAt : List Nat → DomNode → (DomNode → List DomNode) → Option DomNode
  | [], n, f =>
    (match f n with
     | [m] => some m
     | _ => none)
  | _ :: _, DomNode.text _, _ => none
  | [i], DomNode.element tag cs, f =>
    (cs.get? i).map (fun c => DomNode.element tag (spliceChild cs i (f c)))
  | i :: j :: rest, DomNode.element tag cs, f =>
    match cs.get? i with
    | none => none
    | some c => (mutateAt (j :: rest) c f).map (fun m => DomNode.element tag (spliceChild cs i [m]))

/-- The first element child carrying `tag`, with its child index. -/
def firstTagIdx (tag : String) : List DomNode → Nat → Option (Nat × DomNode)
  | [], _ => none
  | DomNode.element t cs :: rest, i =>
    if t == tag then some (i, DomNode.element t cs) else firstTagIdx tag rest (i + 1)
  | DomNode.text _ :: rest, i => firstTagIdx tag rest (i + 1)

/-- `document.body`: the first `body` element child of the document's first
`html` element child, as a path/node pair. -/
def bodyPath (doc : DomNode) : Option (List Nat × DomNode) :=
  match doc with
  | DomNode.text _ => none
  | DomNode.element _ cs =>
    match firstTagIdx "html" cs 0 with
    | none => none
    | some (i, h) =>
      match h with
      | DomNode.text _ => none
      | DomNode.element _ hcs =>
        match firstTagIdx "body" hcs 0 with
        | none => none
        | some (j, b) => some ([i, j], b)

mutual

/-- `findTextInDocument`'s TreeWalker loop restricted to a subtree: the first
text node, in document (depth-first) order, whose content contains the
snippet; returned as a child-index path. -/
def findTextWalker (pat : List Char) : DomNode → Option (List Nat)
  | DomNode.text c => if containsB c pat then some [] else none
  | DomNode.element _ cs => findTextChildren pat cs 0

/-- The walker over a child list starting at child index `i`. -/
def findTextChildren (pat : List Char) : List DomNode → Nat → Option (List Nat)
  | [], _ => none
  | n :: rest, i =>
    match findTextWalker pat n with
    | some p => some (i :: p)
    | none => findTextChildren pat rest (i + 1)

end

mutual

/-- All text nodes of a subtree in document (depth-first) order, each with its
child-index path and content. Specification device for the walker. -/
def textNodesPre : DomNode → List (List Nat × List Char)
  | DomNode.text c => [([], c)]
  | DomNode.element _ cs => textNodesPreList cs 0

/-- `textNodesPre` over a child list starting at child index `i`. -/
def textNodesPreList : List DomNode → Nat → List (List Nat × List Char)
  | [], _ => []
  | n :: rest, i =>
    (textNodesPre n).map (fun pc => (i :: pc.1, pc.2)) ++ textNodesPreList rest (i + 1)

end

/-- The resolution order of `insertAnnotationMarker`: XPath first, then
`findTextInDocument(doc, position.textSnippet)` over `doc.body` (when the
document has no body the walker construction throws, which the caller's
catch turns into a failure — `none` here). -/
def resolveTarget (doc : DomNode) (pos : DomPosition) : Option (List Nat) :=
  match xpathLocate pos.path doc with
  | some p => some p
  | none =>
    match bodyPath doc with
    | none => none
    | some (bp, body) => (findTextWalker pos.textSnippet body).map (fun p => bp ++ p)

/-- The three nodes a text-node split produces:
`offset = Math.min(position.offset, text.length)`, then the before text, the
marker, and the after text. -/
def splitTextNodes (content : List Char) (offset : Nat) (marker : DomNode) : List DomNode :=
  let off := min offset content.length
  [DomNode.text (content.take off), marker, DomNode.text (content.drop off)]

/-- `insertAnnotationMarker(doc, position, marker)`: resolve the target; a
text-node target with a parent is split at the clamped offset and replaced by
`before, marker, after`; an element target gets the marker appended as its
last child; every unresolvable or parentless case reports `false` with the
document untouched (the source's catch also maps any thrown error to
`false`). -/
def insertAnnotationMarker (doc : DomNode) (pos : DomPosition) (marker : DomNode) :
    DomNode × Bool :=
  match resolveTarget doc pos with
  | none => (doc, false)
  | some p =>
    match getNodeAt p doc with
    | none => (doc, false)
    | some (DomNode.text content) =>
      match p with
      | [] => (doc, false)
      | _ :: _ =>
        match mutateAt p doc (fun _ => splitTextNodes content pos.offset marker) with
        | some doc2 => (doc2, true)
        | none => (doc, false)
    | some (DomNode.element tag cs) =>
      match mutateAt p doc (fun _ => [DomNode.element tag (cs ++ [marker])]) with
      | some doc2 => (doc2, true)
      | none => (doc, false)

/- ============ Annotation Store (AnnotationsProvider context) ============ -/

/-- The `IconType` union of types/annotations.ts. -/
inductive IconType where
  | deaconOut
  | deaconIn
  | censorReady
  | censorHand
  | waterBoil
  | waterTake
  | gospelGates
  | gospelThrone
  | breadBless
  | breadDistribute
deriving DecidableEq

/-- The `'icon' | 'note'` union. -/
inductive AnnKind where
  | icon
  | note
deriving DecidableEq

/-- The stored `AnnotationPosition` record. -/
structure AnnotationPosition where
  xpath : String
  offset : Nat
  textSnippet : String
deriving DecidableEq

/-- The `Annotation` record of types/annotations.ts: optional `iconType` and
`noteText` alongside the discriminating `type`. -/
structure Annot where
  id : String
  type : AnnKind
  iconType : Option IconType
  noteText : Option String
  position : AnnotationPosition
  serviceType : String
  createdAt : Int
  updatedAt : Int
deriving DecidableEq

/-- `addIconAnnotation`'s new record appended to the collection (`newId` is
the `Date.now()`-plus-random id the source builds). -/
def addIconAnnot (now : Int) (newId : String) (anns : List Annot) (serviceType : String)
    (iconType : IconType) (position : AnnotationPosition) : List Annot :=
  anns ++ [⟨newId, AnnKind.icon, some iconType, none, position, serviceType, now, now⟩]

/-- `addNoteAnnotation`'s new record appended to the collection. -/
def addNoteAnnot (now : Int) (newId : String) (anns : List Annot) (serviceType : String)
    (noteText : String) (position : AnnotationPosition) : List Annot :=
  anns ++ [⟨newId, AnnKind.note, none, some noteText, position, serviceType, now, now⟩]

/-- `updateNoteAnnotation(id, noteText)`:
`annotations.map(a => a.id === id ? { ...a, noteText, updatedAt: Date.now() } : a)`.
The map spreads `noteText` onto every record whose id matches, with no check
of the record's `type`. -/
def updateNoteAnnot (now : Int) (anns : List Annot) (id : String) (noteText : String) :
    List Annot :=
  anns.map (fun a =>
    if a.id == id then { a with noteText := some noteText, updatedAt := now } else a)

/-- `removeAnnotation(id)`: `annotations.filter(a => a.id !== id)`. -/
def removeAnnot (anns : List Annot) (id : String) : List Annot :=
  anns.filter (fun a => a.id != id)

/-- `getAnnotationsForService(serviceType)`. -/
def getAnnotationsForService (anns : List Annot) (serviceType : String) : List Annot :=
  anns.filter (fun a => a.serviceType == serviceType)

/-- The kind/payload invariant: `iconType` is populated exactly when `type`
is `'icon'`, and `noteText` exactly when `type` is `'note'`. -/
def wfAnnot (a : Annot) : Bool :=
  (a.iconType.isSome == (a.type == AnnKind.icon)) &&
    (a.noteText.isSome == (a.type == AnnKind.note))

/-- The invariant over the whole collection. -/
def wfAnnotList (l : List Annot) : Bool := l.all wfAnnot

/-- The provider's state: the React `annotations` state plus the single
`@dcs_annotations` AsyncStorage key (`none` = never written). -/
structure AnnStoreState where
  annotations : List Annot
  stored : Option (List Annot)
deriving DecidableEq

/-- `saveAnnotations(newAnnotations)`:
`try { await AsyncStorage.setItem(...); setAnnotations(newAnnotations); }
catch (error) { console.error(...); }`. A write failure skips the state
update and is only logged — the promise still resolves, recorded as
`Except.ok ()` either way. -/
def saveAnnotations (s : AnnStoreState) (writeFails : Bool) (newAnns : List Annot) :
    AnnStoreState × Except Unit Unit :=
  if writeFails then (s, Except.ok ())
  else ({ annotations := newAnns, stored := some newAnns }, Except.ok ())

/- ==================== shared lemmas ==================== -/

/-- Writing a key makes it the one looked up. -/
theorem lookupEntry_storeEntry_self {α : Type} (m : EntryMap α) (key : String)
    (e : CacheEntry α) : lookupEntry (storeEntry m key e) key = some e := by
  simp [lookupEntry, storeEntry, List.lookup]

/- ==================== example states ==================== -/

/-- A persisted entry written at time 0 with a 10ms TTL. -/
def exEntryNat : CacheEntry Nat := ⟨7, 0, 10, "k"⟩

/-- Cold memory, the entry persisted in AsyncStorage. -/
def exStateC1 : CacheState Nat := ⟨[], [("k", exEntryNat)], [], true⟩

/- ==================== C1 ==================== -/

/-- C1 counterexample: at `now = 100` the AsyncStorage entry (written at 0,
ttl 10) is stale. `getCache` returns it and promotes it, but the promoted
in-memory entry carries timestamp 100, not the persisted 0 — it does not
equal the persisted entry — and the subsequent in-memory read reports the
entry fresh (`isStale = false`) although the persistent copy is stale. -/
theorem getCache_promotion_resets_timestamp_cex :
    (getCache 100 exStateC1 "k" false).1 = some exEntryNat ∧
    isStale 100 exEntryNat = true ∧
    lookupEntry (getCache 100 exStateC1 "k" false).2.memory "k" =
      some ⟨7, 100, 10, "k"⟩ ∧
    (some (⟨7, 100, 10, "k"⟩ : CacheEntry Nat) ≠ some exEntryNat) ∧
    (getCache 100 (getCache 100 exStateC1 "k" false).2 "k" false).1 =
      some ⟨7, 100, 10, "k"⟩ ∧
    isStale 100 (⟨7, 100, 10, "k"⟩ : CacheEntry Nat) = false := by
  decide

/-- C1 (amended): when `get(key, tier)` misses in memory and hits the
persistent tier, the persisted entry itself is returned and an entry with
the same data, ttl and key is promoted into memory — but its timestamp is
reset to the promotion time, so staleness of the promoted copy is measured
from the promotion, not from the original write. -/
theorem getCache_promotion_amended {α : Type} (now : Int) (s : CacheState α) (key : String)
    (useFileSystem : Bool) (e : CacheEntry α)
    (hmem : lookupEntry s.memory key = none)
    (hpers : lookupEntry (if useFileSystem then s.files else s.storage) key = some e) :
    getCache now s key useFileSystem = (some e, setInMemory now s key e.data e.ttl) ∧
    lookupEntry (setInMemory now s key e.data e.ttl).memory key =
      some ⟨e.data, now, e.ttl, key⟩ ∧
    (∀ later : Int, isStale later (⟨e.data, now, e.ttl, key⟩ : CacheEntry α) =
      decide (later - now > e.ttl)) := by
  refine ⟨?_, lookupEntry_storeEntry_self s.memory key _, fun later => rfl⟩
  unfold getCache
  rw [hmem]
  cases useFileSystem <;> simp_all

/-- C1 amended-claim witness at the concrete state. -/
theorem getCache_promotion_amended_witness :
    lookupEntry exStateC1.memory "k" = none ∧
    getCache 100 exStateC1 "k" false =
      (some exEntryNat, setInMemory 100 exStateC1 "k" exEntryNat.data exEntryNat.ttl) :=
  ⟨by decide,
    (getCache_promotion_amended 100 exStateC1 "k" false exEntryNat (by decide) (by decide)).1⟩

/- ==================== C2 / C7 ==================== -/

/-- `setCache` always leaves the new entry in memory. -/
theorem setCache_memory_lookup {α : Type} (now : Int) (isStr : α → Bool) (s : CacheState α)
    (key : String) (data : α) (ttl : Int) (useFileSystem : Bool) :
    lookupEntry (setCache now isStr s key data ttl useFileSystem).memory key =
      some ⟨data, now, ttl, key⟩ := by
  cases useFileSystem <;> by_cases h : isStr data <;>
    simp [setCache, setInMemory, h, lookupEntry_storeEntry_self, mkEntry]

/-- With the key-value tier selected, `setCache` writes AsyncStorage. -/
theorem setCache_storage_lookup {α : Type} (now : Int) (isStr : α → Bool) (s : CacheState α)
    (key : String) (data : α) (ttl : Int) :
    lookupEntry (setCache now isStr s key data ttl false).storage key =
      some ⟨data, now, ttl, key⟩ := by
  simp [setCache, setInMemory, lookupEntry_storeEntry_self, mkEntry]

/-- With the blob tier selected and string-shaped data, `setCache` writes the
file tier. -/
theorem setCache_files_lookup {α : Type} (now : Int) (isStr : α → Bool) (s : CacheState α)
    (key : String) (data : α) (ttl : Int) (h : isStr data = true) :
    lookupEntry (setCache now isStr s key data ttl true).files key =
      some ⟨data, now, ttl, key⟩ := by
  simp [setCache, setInMemory, h, lookupEntry_storeEntry_self, mkEntry]

/-- An empty cache state. -/
def emptyStateNat : CacheState Nat := ⟨[], [], [], true⟩

/-- C2: when `getCache` yields an entry — fresh or stale — `getWithRevalidate`
resolves with exactly that entry's data and without having awaited `fetchFn`;
when no entry exists, `fetchFn` is awaited, and a fetched value is written to
the cache (memory always, and the selected persistent tier under its shape
contract) before being returned. -/
theorem getWithRevalidate_contract {α : Type} (now : Int) (isStr : α → Bool)
    (s : CacheState α) (key : String) (fetchOutcome : Except Unit α) (ttl : Int)
    (useFileSystem : Bool) :
    (∀ e s1, getCache now s key useFileSystem = (some e, s1) →
      (getWithRevalidate now isStr s key fetchOutcome ttl useFileSystem).result =
        Except.ok e.data ∧
      (getWithRevalidate now isStr s key fetchOutcome ttl useFileSystem).fetchAwaited =
        false) ∧
    ((getCache now s key useFileSystem).1 = none →
      (getWithRevalidate now isStr s key fetchOutcome ttl useFileSystem).fetchAwaited =
        true ∧
      ∀ d, fetchOutcome = Except.ok d →
        (getWithRevalidate now isStr s key fetchOutcome ttl useFileSystem).result =
          Except.ok d ∧
        lookupEntry
            (getWithRevalidate now isStr s key fetchOutcome ttl useFileSystem).state.memory
            key = some ⟨d, now, ttl, key⟩ ∧
        (useFileSystem = false →
          lookupEntry
              (getWithRevalidate now isStr s key fetchOutcome ttl
                useFileSystem).state.storage key = some ⟨d, now, ttl, key⟩) ∧
        (useFileSystem = true → isStr d = true →
          lookupEntry
              (getWithRevalidate now isStr s key fetchOutcome ttl
                useFileSystem).state.files key = some ⟨d, now, ttl, key⟩)) := by
  constructor
  · intro e s1 hget
    unfold getWithRevalidate
    rw [hget]
    by_cases hst : isStale now e <;> simp [hst]
  · intro hnone
    rcases hg : getCache now s key useFileSystem with ⟨r, s1⟩
    rw [hg] at hnone
    simp only at hnone
    subst hnone
    unfold getWithRevalidate
    rw [hg]
    cases fetchOutcome with
    | error e => exact ⟨rfl, by intro d hd; cases hd⟩
    | ok d0 =>
      refine ⟨rfl, ?_⟩
      intro d hd
      injection hd with hd
      subst hd
      refine ⟨rfl, setCache_memory_lookup .., ?_, ?_⟩
      · intro hf; subst hf; exact setCache_storage_lookup now isStr s1 key d0 ttl
      · intro hf hstr; subst hf; exact setCache_files_lookup now isStr s1 key d0 ttl hstr

/-- C2 witness: cold cache, fetch resolves with 42. -/
theorem getWithRevalidate_contract_witness :
    (getCache 5 emptyStateNat "k" false).1 = none ∧
    (getWithRevalidate 5 (fun _ => true) emptyStateNat "k" (Except.ok 42) 9
      false).fetchAwaited = true ∧
    (getWithRevalidate 5 (fun _ => true) emptyStateNat "k" (Except.ok 42) 9
      false).result = Except.ok 42 ∧
    lookupEntry
        (getWithRevalidate 5 (fun _ => true) emptyStateNat "k" (Except.ok 42) 9
          false).state.memory "k" = some ⟨42, 5, 9, "k"⟩ :=
  ⟨by decide,
    ((getWithRevalidate_contract 5 (fun _ => true) emptyStateNat "k" (Except.ok 42) 9
      false).2 (by decide)).1,
    (((getWithRevalidate_contract 5 (fun _ => true) emptyStateNat "k" (Except.ok 42) 9
      false).2 (by decide)).2 42 rfl).1,
    (((getWithRevalidate_contract 5 (fun _ => true) emptyStateNat "k" (Except.ok 42) 9
      false).2 (by decide)).2 42 rfl).2.1⟩

/-- C7: a stale hit spawns the background revalidation carrying the stale
value; when the fetch later resolves, the cache is overwritten through
`setCache` only if the serialized values differ, and is left exactly as it
was — same entry, same timestamp — when they agree. -/
theorem revalidate_write_only_on_change {α : Type} (now now2 : Int) (encode : α → String)
    (isStr : α → Bool) (s s1 : CacheState α) (key : String) (fetchOutcome : Except Unit α)
    (ttl : Int) (useFileSystem : Bool) (cached : CacheEntry α) (fresh : α)
    (hget : getCache now s key useFileSystem = (some cached, s1))
    (hstale : isStale now cached = true) :
    (getWithRevalidate now isStr s key fetchOutcome ttl
      useFileSystem).revalidationStarted = true ∧
    (getWithRevalidate now isStr s key fetchOutcome ttl useFileSystem).staleData =
      some cached.data ∧
    (getWithRevalidate now isStr s key fetchOutcome ttl useFileSystem).state = s1 ∧
    (encode fresh = encode cached.data →
      revalidateBackground now2 encode isStr s1 key cached.data (Except.ok fresh) ttl
        useFileSystem = s1) ∧
    (encode fresh ≠ encode cached.data →
      revalidateBackground now2 encode isStr s1 key cached.data (Except.ok fresh) ttl
          useFileSystem = setCache now2 isStr s1 key fresh ttl useFileSystem ∧
      lookupEntry (revalidateBackground now2 encode isStr s1 key cached.data
          (Except.ok fresh) ttl useFileSystem).memory key = some ⟨fresh, now2, ttl, key⟩) := by
  refine ⟨?_, ?_, ?_, ?_, ?_⟩
  · unfold getWithRevalidate; rw [hget]; simp [hstale]
  · unfold getWithRevalidate; rw [hget]; simp [hstale]
  · unfold getWithRevalidate; rw [hget]; simp [hstale]
  · intro heq
    unfold revalidateBackground
    simp [heq]
  · intro hne
    have hb : (encode fresh != encode cached.data) = true := by
      simpa using hne
    constructor
    · unfold revalidateBackground
      simp [hb]
    · unfold revalidateBackground
      simp only [hb, if_pos]
      exact setCache_memory_lookup ..

/-- C7 witness: the stale entry of `exStateC1`, refetched identical — no
write, state untouched. -/
theorem revalidate_write_only_on_change_witness :
    toBase36 7 = toBase36 exEntryNat.data ∧
    revalidateBackground 200 (fun n => toBase36 n) (fun _ => true)
        (setInMemory 100 exStateC1 "k" exEntryNat.data exEntryNat.ttl) "k" exEntryNat.data
        (Except.ok 7) 10 false =
      setInMemory 100 exStateC1 "k" exEntryNat.data exEntryNat.ttl :=
  ⟨by decide,
    (revalidate_write_only_on_change 100 200 (fun n => toBase36 n) (fun _ => true)
      exStateC1 (setInMemory 100 exStateC1 "k" exEntryNat.data exEntryNat.ttl) "k"
      (Except.ok 7) 10 false exEntryNat 7 (by decide) (by decide)).2.2.2.1 (by decide)⟩

/- ==================== C3 / C4 ==================== -/

/-- A stored position used by the example annotations. -/
def exPos : AnnotationPosition := ⟨"/html[1]/body[1]/p[1]", 3, "around here"⟩

/-- An icon annotation satisfying the kind/payload invariant. -/
def exIconAnnot : Annot :=
  ⟨"id1", AnnKind.icon, some IconType.deaconOut, none, exPos, "Matins", 0, 0⟩

/-- A note annotation satisfying the kind/payload invariant. -/
def exNoteAnnot : Annot :=
  ⟨"id2", AnnKind.note, none, some "my note", exPos, "Matins", 0, 0⟩

/-- C3 counterexample: `updateNoteAnnotation` matches on id only, so applied
to the id of an icon-kind record it spreads `noteText` onto it; the record
then has `type = 'icon'` with both `iconType` and `noteText` populated,
violating the invariant — `update` does not apply only to note-kind
records. -/
theorem annot_invariant_update_cex :
    wfAnnotList [exIconAnnot] = true ∧
    updateNoteAnnot 5 [exIconAnnot] "id1" "hello" =
      [{ exIconAnnot with noteText := some "hello", updatedAt := 5 }] ∧
    wfAnnotList (updateNoteAnnot 5 [exIconAnnot] "id1" "hello") = false := by
  decide

/-- C3 (amended): both creates and `remove` preserve the kind/payload
invariant unconditionally; `update(id, newText)` rewrites any record whose id
matches regardless of kind, so it preserves the invariant only when every
record carrying that id is note-kind. -/
theorem annot_invariant_amended (now : Int) (newId : String) (anns : List Annot)
    (svc : String) (ic : IconType) (txt : String) (pos : AnnotationPosition) (id : String)
    (h : wfAnnotList anns = true) :
    wfAnnotList (addIconAnnot now newId anns svc ic pos) = true ∧
    wfAnnotList (addNoteAnnot now newId anns svc txt pos) = true ∧
    wfAnnotList (removeAnnot anns id) = true ∧
    ((∀ a ∈ anns, a.id = id → a.type = AnnKind.note) →
      wfAnnotList (updateNoteAnnot now anns id txt) = true) := by
  refine ⟨?_, ?_, ?_, ?_⟩
  · simp only [wfAnnotList, addIconAnnot, List.all_append] at h ⊢
    simp [h, wfAnnot]
  · simp only [wfAnnotList, addNoteAnnot, List.all_append] at h ⊢
    simp [h, wfAnnot]
  · simp only [wfAnnotList, removeAnnot, List.all_eq_true] at h ⊢
    intro a ha
    exact h a (List.mem_of_mem_filter ha)
  · intro hnote
    simp only [wfAnnotList, updateNoteAnnot, List.all_map, List.all_eq_true,
      Function.comp] at h ⊢
    intro a ha
    by_cases hid : a.id == id
    · have hidEq : a.id = id := by simpa using hid
      have htype := hnote a ha hidEq
      have hw := h a ha
      simp only [wfAnnot, htype] at hw ⊢
      simp only [hid, if_pos]
      simp at hw ⊢
      exact hw.1
    · simp only [hid]
      simpa using h a ha

/-- C3 amended-claim witness: updating a note-kind record keeps the
invariant. -/
theorem annot_invariant_amended_witness :
    wfAnnotList [exNoteAnnot] = true ∧
    wfAnnotList (updateNoteAnnot 5 [exNoteAnnot] "id2" "hello") = true :=
  ⟨by decide,
    (annot_invariant_amended 5 "id9" [exNoteAnnot] "Matins" IconType.deaconOut "hello"
      exPos "id2" (by decide)).2.2.2 (by decide)⟩

/-- An annotation store holding one persisted note. -/
def exAnnStore : AnnStoreState := ⟨[exNoteAnnot], some [exNoteAnnot]⟩

/-- C4: on a failing persistence write, `saveAnnotations` resolves normally —
`Except.ok ()`, nothing for the caller to observe — instead of propagating
the failure; the in-memory collection (and previously stored copy) are
indeed left unchanged. The claim's propagation half is what the code
violates. -/
theorem saveAnnotations_failure_swallowed :
    (saveAnnotations exAnnStore true
        (addIconAnnot 5 "id9" exAnnStore.annotations "Matins" IconType.deaconOut exPos)).2 =
      Except.ok () ∧
    (saveAnnotations exAnnStore true
        (addIconAnnot 5 "id9" exAnnStore.annotations "Matins" IconType.deaconOut exPos)).1 =
      exAnnStore := by
  decide

/- ==================== C5 ==================== -/

/-- An empty string-valued cache state. -/
def emptyStateStr : CacheState String := ⟨[], [], [], true⟩

/-- An asset URL of the upstream site. -/
def exAssetUrl : String := "https://dcs.goarch.org/img/icon.png"

/-- The cached mapping for that URL: its data is the local path recorded by a
previous successful download. -/
def exAssetEntry : CacheEntry String :=
  ⟨"file:///cache/dcs/asset_old.png", 0, 50, getAssetKey exAssetUrl⟩

/-- A cache state already mapping the asset URL. -/
def exAssetState : CacheState String :=
  ⟨[(getAssetKey exAssetUrl, exAssetEntry)], [], [], true⟩

set_option maxRecDepth 100000 in
/-- C5: on a cache hit `cacheAsset` resolves with the whole `CacheEntry`
object rather than the stored local path string `cached.data`, contradicting
its own declared `Promise<string>` type; the failure paths do return the
original URL unchanged. -/
theorem cacheAsset_hit_returns_entry_object :
    (cacheAsset 10 exAssetState exAssetUrl (Except.ok 200) 50).1 =
      JsValue.entryObj exAssetEntry ∧
    (∀ p : String, JsValue.entryObj exAssetEntry ≠ JsValue.str p) ∧
    (cacheAsset 10 emptyStateStr exAssetUrl (Except.error ()) 50).1 =
      JsValue.str exAssetUrl ∧
    (cacheAsset 10 emptyStateStr exAssetUrl (Except.ok 404) 50).1 =
      JsValue.str exAssetUrl := by
  refine ⟨by decide, fun p => by simp, by decide, by decide⟩

/- ==================== C8 ==================== -/

set_option maxRecDepth 100000 in
/-- C8 counterexample: with an `http:` base URL the code still prefixes a
protocol-relative reference with the literal `https:`, not the base's
current scheme — the result differs from scheme-of-base resolution. -/
theorem resolveUrl_protocol_relative_cex :
    resolveUrl "//cdn.example.com/a.png" "http://dcs.goarch.org/goa/x.html" =
      "https://cdn.example.com/a.png" ∧
    urlProtocol "http://dcs.goarch.org/goa/x.html" = "http:" ∧
    resolveUrl "//cdn.example.com/a.png" "http://dcs.goarch.org/goa/x.html" ≠
      urlProtocol "http://dcs.goarch.org/goa/x.html" ++ "//cdn.example.com/a.png" := by
  decide

/-- C8 (amended): the resolution rules as implemented — absolute `http(s)`
URLs pass through; protocol-relative URLs are prefixed with the literal
`https:` regardless of the base URL's scheme; root-relative URLs are rebuilt
from the base's protocol and host; everything else is appended to the
document's directory. -/
theorem resolveUrl_rules_amended (url baseUrl : String) :
    ((strStartsWith url "http://" || strStartsWith url "https://") = true →
      resolveUrl url baseUrl = url) ∧
    ((strStartsWith url "http://" || strStartsWith url "https://") = false →
      strStartsWith url "//" = true →
      resolveUrl url baseUrl = "https:" ++ url) ∧
    ((strStartsWith url "http://" || strStartsWith url "https://") = false →
      strStartsWith url "//" = false → strStartsWith url "/" = true →
      resolveUrl url baseUrl = urlProtocol baseUrl ++ "//" ++ urlHost baseUrl ++ url) ∧
    ((strStartsWith url "http://" || strStartsWith url "https://") = false →
      strStartsWith url "//" = false → strStartsWith url "/" = false →
      resolveUrl url baseUrl = urlDirectory baseUrl ++ url) := by
  refine ⟨?_, ?_, ?_, ?_⟩ <;> intros <;> simp_all [resolveUrl, urlDirectory]

set_option maxRecDepth 100000 in
/-- C8 amended-claim witness: the protocol-relative rule at the
counterexample input. -/
theorem resolveUrl_rules_amended_witness :
    (strStartsWith "//cdn.example.com/a.png" "http://" ||
      strStartsWith "//cdn.example.com/a.png" "https://") = false ∧
    strStartsWith "//cdn.example.com/a.png" "//" = true ∧
    resolveUrl "//cdn.example.com/a.png" "http://dcs.goarch.org/goa/x.html" =
      "https:" ++ "//cdn.example.com/a.png" :=
  ⟨by decide, by decide,
    (resolveUrl_rules_amended "//cdn.example.com/a.png"
      "http://dcs.goarch.org/goa/x.html").2.1 (by decide) (by decide)⟩

/- ==================== C9 ==================== -/

/-- A namespace-prefixed AsyncStorage entry. -/
def exClearEntry : CacheEntry Nat := ⟨1, 0, 10, "dcs:cache:k1"⟩

/-- A populated cache state: one memory entry, a namespaced AsyncStorage key
next to a foreign key, one blob file, directory present. -/
def exClearState : CacheState Nat :=
  ⟨[("m", exEntryNat)],
   [("dcs:cache:k1", exClearEntry), ("@dcs_annotations", exEntryNat)],
   [("dcs:cache:k1", exClearEntry)], true⟩

/-- C9 counterexample: with the AsyncStorage phase failing, `clearCache`
still clears memory and the blob directory, leaves every AsyncStorage key —
including the namespaced one — in place, and resolves with plain success:
a partial clear that is not reported to the caller. -/
theorem clearCache_partial_silent_cex :
    (clearCache exClearState true false).2 = Except.ok () ∧
    (clearCache exClearState true false).1.memory = [] ∧
    (clearCache exClearState true false).1.files = [] ∧
    lookupEntry (clearCache exClearState true false).1.storage "dcs:cache:k1" =
      some exClearEntry := by
  decide

/-- C9 (amended): `clear()` wipes memory unconditionally; each persistent
phase runs in its own try/catch whose failure is only logged, so the call
always resolves successfully even when a phase failed and left its tier
untouched; when nothing fails the namespaced AsyncStorage keys are removed
and the blob directory (when present) is emptied and recreated. -/
theorem clearCache_amended {α : Type} (s : CacheState α) (storageOpFails fsOpFails : Bool) :
    (clearCache s storageOpFails fsOpFails).2 = Except.ok () ∧
    (clearCache s storageOpFails fsOpFails).1.memory = [] ∧
    (storageOpFails = false →
      (clearCache s storageOpFails fsOpFails).1.storage =
        s.storage.filter (fun kv => !(strStartsWith kv.1 cacheNamespace))) ∧
    (storageOpFails = true →
      (clearCache s storageOpFails fsOpFails).1.storage = s.storage) ∧
    (fsOpFails = false → s.dirExists = true →
      (clearCache s storageOpFails fsOpFails).1.files = [] ∧
      (clearCache s storageOpFails fsOpFails).1.dirExists = true) := by
  cases storageOpFails <;> cases fsOpFails <;>
    by_cases h : s.dirExists <;> simp_all [clearCache]

/-- C9 amended-claim witness: the failure-free clear at the concrete state. -/
theorem clearCache_amended_witness :
    (clearCache exClearState false false).1.storage =
      exClearState.storage.filter (fun kv => !(strStartsWith kv.1 cacheNamespace)) ∧
    (clearCache exClearState false false).1.files = [] :=
  ⟨(clearCache_amended exClearState false false).2.2.1 rfl,
    ((clearCache_amended exClearState false false).2.2.2.2 rfl (by decide)).1⟩

/- ==================== C6 / C10 ==================== -/

mutual

/-- The walker loop returns exactly the first text node, in document order,
whose content contains the snippet. -/
theorem findTextWalker_eq_find (pat : List Char) (n : DomNode) :
    findTextWalker pat n =
      ((textNodesPre n).find? fun pc => containsB pc.2 pat).map Prod.fst := by
  match n with
  | DomNode.text c =>
    simp only [findTextWalker, textNodesPre, List.find?]
    by_cases h : containsB c pat <;> simp [h]
  | DomNode.element _ cs =>
    simp only [findTextWalker, textNodesPre]
    exact findTextChildren_eq_find pat cs 0

/-- The walker over a child list, against the flattened enumeration. -/
theorem findTextChildren_eq_find (pat : List Char) (cs : List DomNode) (i : Nat) :
    findTextChildren pat cs i =
      ((textNodesPreList cs i).find? fun pc => containsB pc.2 pat).map Prod.fst := by
  match cs with
  | [] => simp [findTextChildren, textNodesPreList]
  | n :: rest =>
    rw [findTextChildren, textNodesPreList, findTextWalker_eq_find pat n,
      findTextChildren_eq_find pat rest (i + 1), List.find?_append, List.find?_map]
    have hpf : ((fun pc => containsB pc.2 pat) ∘
        fun pc : List Nat × List Char => (i :: pc.1, pc.2)) =
        (fun pc => containsB pc.2 pat) := funext fun pc => rfl
    rw [hpf]
    cases hf : (textNodesPre n).find? (fun pc => containsB pc.2 pat) with
    | none => simp
    | some v => simp

end

/-- A valid non-root path can always be edited: `mutateAt` succeeds wherever
`getNodeAt` finds a node. -/
theorem mutateAt_isSome_of_getNodeAt (p : List Nat) (doc n : DomNode)
    (f : DomNode → List DomNode) (hne : p ≠ []) (h : getNodeAt p doc = some n) :
    (mutateAt p doc f).isSome = true := by
  match p, doc with
  | [], _ => exact absurd rfl hne
  | _ :: _, DomNode.text _ => simp [getNodeAt] at h
  | [i], DomNode.element tag cs =>
    simp only [getNodeAt] at h
    cases hk : cs.get? i with
    | none => rw [hk] at h; simp at h
    | some c =>
      have hk2 : cs[i]? = some c := by simpa using hk
      simp [mutateAt, hk2]
  | i :: j :: rest, DomNode.element tag cs =>
    simp only [getNodeAt] at h
    cases hk : cs.get? i with
    | none => rw [hk] at h; simp at h
    | some c =>
      rw [hk] at h
      have hrec := mutateAt_isSome_of_getNodeAt (j :: rest) c n f (by simp) h
      have hk2 : cs[i]? = some c := by simpa using hk
      cases hm : mutateAt (j :: rest) c f with
      | none => rw [hm] at hrec; simp at hrec
      | some m => simp [mutateAt, hk2, hm]

/-- C6: the resolution order of marker insertion — the structural (XPath)
walk from the document root decides when it succeeds; only when it yields no
node is the depth-first scan of the body consulted, and that scan returns
precisely the first text node in document order whose content contains the
snippet; when the body is missing or no text node matches, resolution is
not-found and insertion reports `false` with the document unchanged rather
than failing the render pass. -/
theorem insertion_strategy_order (doc body marker : DomNode) (pos : DomPosition)
    (bp : List Nat) :
    ((xpathLocate pos.path doc).isSome = true →
      resolveTarget doc pos = xpathLocate pos.path doc) ∧
    (xpathLocate pos.path doc = none → bodyPath doc = some (bp, body) →
      resolveTarget doc pos =
        (((textNodesPre body).find? fun pc => containsB pc.2 pos.textSnippet).map
          (fun pc => bp ++ pc.1))) ∧
    (xpathLocate pos.path doc = none → bodyPath doc = none →
      resolveTarget doc pos = none) ∧
    (resolveTarget doc pos = none →
      insertAnnotationMarker doc pos marker = (doc, false)) := by
  refine ⟨?_, ?_, ?_, ?_⟩
  · intro h
    unfold resolveTarget
    cases hx : xpathLocate pos.path doc with
    | none => rw [hx] at h; simp at h
    | some p => rfl
  · intro hx hb
    simp only [resolveTarget, hx, hb]
    rw [findTextWalker_eq_find]
    cases hf : (textNodesPre body).find? fun pc => containsB pc.2 pos.textSnippet <;>
      simp [hf]
  · intro hx hb
    unfold resolveTarget
    rw [hx, hb]
  · intro h
    unfold insertAnnotationMarker
    rw [h]

/-- The body element of the example document. -/
def exBody : DomNode :=
  DomNode.element "body"
    [DomNode.element "p" [DomNode.text "first paragraph".toList],
     DomNode.element "p" [DomNode.text "the target text here".toList]]

/-- An example document: `#document > html > (head, body)`. -/
def exDoc : DomNode :=
  DomNode.element "#document"
    [DomNode.element "html" [DomNode.element "head" [], exBody]]

/-- A stored position whose structural path no longer matches the document
but whose snippet still occurs in the second paragraph. -/
def exSnipPos : DomPosition :=
  ⟨[("html", 1), ("body", 1), ("div", 1)], 4, "target".toList⟩

/-- A marker element (`span.dcs-annotation`). -/
def exMarker : DomNode := DomNode.element "span" []

set_option maxRecDepth 100000 in
/-- C6 witness: the broken structural path falls through to the snippet scan
on the example document. -/
theorem insertion_strategy_order_witness :
    xpathLocate exSnipPos.path exDoc = none ∧
    resolveTarget exDoc exSnipPos =
      (((textNodesPre exBody).find? fun pc => containsB pc.2 exSnipPos.textSnippet).map
        (fun pc => [0, 1] ++ pc.1)) ∧
    resolveTarget exDoc exSnipPos = some [0, 1, 1, 0] :=
  ⟨by decide,
    (insertion_strategy_order exDoc exBody exMarker exSnipPos [0, 1]).2.1 (by decide)
      (by rfl),
    by decide⟩

/-- C10: on a text-node target, insertion is total in the stored offset: the
offset is clamped to the text length, the split produces
`before, marker, after` whose text concatenation is the original content,
insertion succeeds, and an offset beyond the text puts the marker after the
node's full text. -/
theorem insert_offset_clamped_total (doc marker : DomNode) (pos : DomPosition)
    (p : List Nat) (content : List Char)
    (hres : resolveTarget doc pos = some p)
    (hnode : getNodeAt p doc = some (DomNode.text content))
    (hne : p ≠ []) :
    (insertAnnotationMarker doc pos marker).2 = true ∧
    splitTextNodes content pos.offset marker =
      [DomNode.text (content.take (min pos.offset content.length)), marker,
        DomNode.text (content.drop (min pos.offset content.length))] ∧
    content.take (min pos.offset content.length) ++
      content.drop (min pos.offset content.length) = content ∧
    (content.length ≤ pos.offset →
      splitTextNodes content pos.offset marker =
        [DomNode.text content, marker, DomNode.text []]) := by
  have hsome := mutateAt_isSome_of_getNodeAt p doc (DomNode.text content)
    (fun _ => splitTextNodes content pos.offset marker) hne hnode
  refine ⟨?_, rfl, List.take_append_drop .., ?_⟩
  · simp only [insertAnnotationMarker, hres, hnode]
    cases p with
    | nil => exact absurd rfl hne
    | cons a as =>
      cases hm : mutateAt (a :: as) doc
          (fun _ => splitTextNodes content pos.offset marker) with
      | none => rw [hm] at hsome; simp at hsome
      | some d => simp [hm]
  · intro h
    simp [splitTextNodes, Nat.min_eq_right h, List.take_length, List.drop_length]

/-- A stored position with an oversized offset whose snippet resolves to a
text node of the example document. -/
def exClampPos : DomPosition := ⟨[("div", 1)], 999, "target".toList⟩

set_option maxRecDepth 100000 in
/-- C10 witness: offset 999 against a 20-character text node — insertion
still succeeds and the marker lands after the full text. -/
theorem insert_offset_clamped_total_witness :
    resolveTarget exDoc exClampPos = some [0, 1, 1, 0] ∧
    (insertAnnotationMarker exDoc exClampPos exMarker).2 = true ∧
    splitTextNodes "the target text here".toList exClampPos.offset exMarker =
      [DomNode.text "the target text here".toList, exMarker, DomNode.text []] :=
  ⟨by decide,
    (insert_offset_clamped_total exDoc exMarker exClampPos [0, 1, 1, 0]
      "the target text here".toList (by decide) (by rfl) (by decide)).1,
    (insert_offset_clamped_total exDoc exMarker exClampPos [0, 1, 1, 0]
      "the target text here".toList (by decide) (by rfl) (by decide)).2.2.2
      (by decide)⟩

end Dcs
